import Mathlib

/-!
Verification development for the Spoti-Finder repository.

Shallow embedding of the two core subsystems:
* `TextEmotionDetector` (file `src/recommendation/recommendation.py`):
  text preprocessing, keyword scoring, sentiment-based label decision,
  confidence computation, and the emotion → music-feature table.
* `SpotifyClient` (file `src/emotion_detection/face_emotion.py`):
  the wrapper around the external Spotify collaborator and the catalog
  build (`build_dataset`).

External collaborators (the Spotify web API, the VADER sentiment analyzer,
TextBlob) are modelled as oracles: functions returning `Except` values whose
`error` case stands for a raised exception.  Python floats are modelled as
exact rationals; Python strings are modelled as `List Char` (ASCII: the
character classes `\w`, `\s` and `str.lower` are modelled on their ASCII
behaviour, which covers every string occurring in the claims).
-/

namespace SpotiFinder

/-! ## Python string primitives -/

/-- ASCII model of the Python regex class `\w`: letters, digits, underscore. -/
def isWordChar (c : Char) : Bool :=
  c.isAlphanum || c = '_'

/-- ASCII model of the Python whitespace class `\s` (the six ASCII whitespace
characters recognised by `str.strip` and `\s`). -/
def isSpaceChar (c : Char) : Bool :=
  c = ' ' || c = '\t' || c = '\n' || c = '\r' || c = '\x0b' || c = '\x0c'

/-- The characters kept by the substitution deleting everything outside the
class `[\w\s.,!?]`:
word characters, whitespace, and `. , ! ?`. -/
def keepChar (c : Char) : Bool :=
  isWordChar c || isSpaceChar c || c = '.' || c = ',' || c = '!' || c = '?'

/-- The Python method `str.lower` (ASCII model). -/
def pyLower (s : List Char) : List Char :=
  s.map Char.toLower

/-- The Python method `str.strip`: remove leading and trailing whitespace. -/
def pyStrip (s : List Char) : List Char :=
  ((s.dropWhile isSpaceChar).reverse.dropWhile isSpaceChar).reverse

/-- Model of `TextEmotionDetector.preprocess_text`: lowercase, delete every character
outside `[\w\s.,!?]`, then strip surrounding whitespace. -/
def preprocess_text (s : List Char) : List Char :=
  pyStrip ((pyLower s).filter keepChar)

/-- Fuel-driven left-to-right non-overlapping scan counting occurrences of
the pattern `n :: ns`: on a match the scan jumps past the whole match,
otherwise it advances one character.  Any fuel of at least the length of the
haystack gives the value of the scan (`countOccAux_eq` below). -/
def countOccAux (n : Char) (ns : List Char) : ℕ → List Char → ℕ
  | _, [] => 0
  | 0, _ :: _ => 0
  | fuel + 1, c :: rest =>
      if (n :: ns).isPrefixOf (c :: rest) then
        1 + countOccAux n ns fuel (rest.drop ns.length)
      else
        countOccAux n ns fuel rest

/-- Non-overlapping occurrence count of `n :: ns` in the haystack: the
semantics of the Python method `str.count` for a non-empty pattern. -/
def countOcc (n : Char) (ns : List Char) (l : List Char) : ℕ :=
  countOccAux n ns l.length l

/-- The Python count operation on strings.  (Python returns `len + 1` for the empty
pattern; every keyword in the lexicon is non-empty.) -/
def pyCount (needle : String) (hay : List Char) : ℕ :=
  match needle.data with
  | [] => hay.length + 1
  | n :: ns => countOcc n ns hay

/-! ## The fixed lexicon tables (`TextEmotionDetector.__init__`) -/

/-- The table `self.emotion_keywords`: the fixed emotion → keyword table, in
the literal (= dict-insertion) order of the source. -/
def emotionKeywords : List (String × List String) :=
  [("happy", ["happy", "joy", "excited", "cheerful", "delighted", "glad", "pleased", "upbeat"]),
   ("sad", ["sad", "depressed", "down", "melancholy", "gloomy", "sorrowful", "blue", "dejected"]),
   ("angry", ["angry", "mad", "furious", "irritated", "annoyed", "rage", "hostile", "bitter"]),
   ("fear", ["afraid", "scared", "fearful", "anxious", "worried", "nervous", "terrified", "panic"]),
   ("surprise", ["surprised", "shocked", "amazed", "astonished", "stunned", "bewildered"]),
   ("disgust", ["disgusted", "revolted", "repulsed", "sickened", "nauseated"]),
   ("love", ["love", "romantic", "affection", "adore", "cherish", "devoted"]),
   ("calm", ["calm", "peaceful", "relaxed", "serene", "tranquil", "zen"])]

/-- A target music-feature row (valence, energy, danceability, tempo). -/
structure MusicFeatures where
  valence : ℚ
  energy : ℚ
  danceability : ℚ
  tempo : ℚ
deriving Repr, DecidableEq

/-- The table `self.emotion_mapping`: the fixed emotion → music-feature table. -/
def emotionMapping : List (String × MusicFeatures) :=
  [("happy", ⟨8/10, 7/10, 8/10, 120⟩),
   ("sad", ⟨2/10, 3/10, 3/10, 80⟩),
   ("angry", ⟨1/10, 9/10, 6/10, 140⟩),
   ("fear", ⟨2/10, 4/10, 2/10, 90⟩),
   ("surprise", ⟨6/10, 6/10, 7/10, 110⟩),
   ("disgust", ⟨3/10, 4/10, 3/10, 95⟩),
   ("love", ⟨7/10, 5/10, 6/10, 100⟩),
   ("calm", ⟨5/10, 3/10, 4/10, 85⟩),
   ("neutral", ⟨5/10, 5/10, 5/10, 110⟩)]

/-- The `neutral` row of `emotion_mapping` (the default supplied to
`dict.get` by the detector). -/
def neutralFeatures : MusicFeatures := ⟨5/10, 5/10, 5/10, 110⟩

/-- The Python dict lookup `get` on a string-keyed dict modelled as an
association list. -/
def dictGet {β : Type} (l : List (String × β)) (k : String) : Option β :=
  (l.find? (fun p => p.1 == k)).map Prod.snd

/-! ## Keyword scoring (`_detect_emotions_by_keywords`) -/

/-- The inner scoring loop: add up the counts of every keyword in the text. -/
def keyword_score (t : List Char) (kws : List String) : ℕ :=
  kws.foldl (fun acc kw => acc + pyCount kw t) 0

/-- Model of the method `_detect_emotions_by_keywords`: one score per emotion,
in the iteration order of the lexicon. -/
def detect_emotions_by_keywords (t : List Char) : List (String × ℕ) :=
  emotionKeywords.map (fun p => (p.1, keyword_score t p.2))

/-! ## Label decision (`_determine_primary_emotion`) -/

/-- VADER `polarity_scores` output. -/
structure SentimentScores where
  compound : ℚ
  pos : ℚ
  neg : ℚ
  neu : ℚ
deriving Repr, DecidableEq

/-- The Python expression taking the key of maximum value over a dict in
iteration order: the first
key attaining the maximum value wins (Python replaces the current best only
on a strictly greater value). -/
def argmaxFirst : List (String × ℕ) → Option (String × ℕ)
  | [] => none
  | (e, v) :: rest =>
      match argmaxFirst rest with
      | none => some (e, v)
      | some (e2, v2) => if v2 > v then some (e2, v2) else some (e, v)

/-- Model of the method `_determine_primary_emotion`.  (The Python `max` raises
on an empty dict; the pipeline always supplies the full 8-entry score table,
so the empty case is unreachable and modelled by the sentiment fallback.) -/
def determine_primary_emotion (s : SentimentScores) (textblobPolarity : ℚ)
    (keywordEmotions : List (String × ℕ)) : String :=
  let best := (argmaxFirst keywordEmotions).getD ("", 0)
  if best.2 > 0 then best.1
  else if s.compound ≥ 5/10 then "happy"
  else if s.compound ≤ -(5/10) then
    if s.neg > 5/10 then (if s.compound ≤ -(7/10) then "angry" else "sad") else "sad"
  else if s.compound > 1/10 then (if s.pos > s.neu then "happy" else "neutral")
  else if s.compound < -(1/10) then "sad"
  else "neutral"

/-! ## Confidence (`_calculate_confidence`) -/

/-- The Python call rounding to three decimals, modelled as rounding `1000*q` to the nearest
integer.  (Python rounds ties to even on binary floats; no claim depends on
the behaviour at an exact half-thousandth.) -/
def pyRound3 (q : ℚ) : ℚ :=
  ((round (q * 1000) : ℤ) : ℚ) / 1000

/-- The maximum of the dict values, for a non-empty dict of `ℕ` values
(the base `0` of the fold is absorbed because every value is a natural). -/
def maxValues (l : List (String × ℕ)) : ℕ :=
  (l.map Prod.snd).foldr max 0

/-- Model of the method `_calculate_confidence`. -/
def calculate_confidence (s : SentimentScores)
    (keywordEmotions : List (String × ℕ)) : ℚ :=
  let base := |s.compound|
  let maxK : ℕ := if keywordEmotions.isEmpty then 0 else maxValues keywordEmotions
  let boost := min ((maxK : ℚ) * (1/10)) (3/10)
  pyRound3 (min (base + boost) 1)

/-! ## `detect_emotion_from_text` -/

/-- The external sentiment collaborators, as oracles.  `error` stands for a
raised exception (caught by the `try`/`except` of the method). -/
structure TextOracles where
  polarity_scores : List Char → Except String SentimentScores
  textblob_sentiment : List Char → Except String (ℚ × ℚ)

/-- The success payload of `detect_emotion_from_text`. -/
structure DetectResult where
  emotion : String
  confidence : ℚ
  sentiment_scores : SentimentScores
  textblob_polarity : ℚ
  textblob_subjectivity : ℚ
  keyword_emotions : List (String × ℕ)
  music_features : MusicFeatures
deriving Repr, DecidableEq

/-- Model of `TextEmotionDetector.detect_emotion_from_text`: returns a result/error
pair, never raises.  Empty or whitespace-only input yields the empty-input
error; an oracle failure yields the analysis-error message. -/
def detect_emotion_from_text (o : TextOracles) (text : List Char) :
    Option DetectResult × Option String :=
  if text = [] ∨ pyStrip text = [] then (none, some "Empty text provided")
  else
    let t := preprocess_text text
    match o.polarity_scores t with
    | .error e => (none, some ("Error analyzing text emotion: " ++ e))
    | .ok s =>
      match o.textblob_sentiment t with
      | .error e => (none, some ("Error analyzing text emotion: " ++ e))
      | .ok ps =>
        let kw := detect_emotions_by_keywords t
        let primary := determine_primary_emotion s ps.1 kw
        (some { emotion := primary,
                confidence := calculate_confidence s kw,
                sentiment_scores := s,
                textblob_polarity := ps.1,
                textblob_subjectivity := ps.2,
                keyword_emotions := kw,
                music_features := (dictGet emotionMapping primary).getD neutralFeatures },
         none)

/-- Model of `TextEmotionDetector.get_music_features_for_emotion`: look up the
lowercased label in `emotion_mapping`, defaulting to the neutral row (the
lowercasing is the same ASCII model `pyLower` used by the preprocessing). -/
def get_music_features_for_emotion (emotion : String) : MusicFeatures :=
  (dictGet emotionMapping ⟨pyLower emotion.data⟩).getD neutralFeatures

/-! ## `SpotifyClient` (file `src/emotion_detection/face_emotion.py`) -/

/-- A raw track record as returned by the `search` and `track` endpoints of
the collaborator (the fields this core reads). -/
structure RawTrack where
  id : String
  name : String
  artists : List String
  album : String
  popularity : ℤ
  preview_url : String
  external_url : String
deriving Repr, DecidableEq

/-- An audio-feature record of the `audio_features` endpoint
(the attributes retained for matching; the real record carries further
fields, none read by this core). -/
structure FeatureRec where
  valence : ℚ
  energy : ℚ
  danceability : ℚ
  tempo : ℚ
deriving Repr, DecidableEq

/-- The dict built by `get_track_info`. -/
structure TrackInfo where
  id : String
  name : String
  artists : List String
  album : String
  popularity : ℤ
  preview_url : String
  external_url : String
deriving Repr, DecidableEq

/-- The external Spotify collaborator (`self.sp`), as an oracle: each
endpoint either returns a value or raises (`error`).  `audio_features` may
return `none` entries (nulls) inside its list. -/
structure SpotifyAPI where
  search : String → ℕ → ℕ → Except String (List RawTrack)
  audio_features : List String → Except String (List (Option FeatureRec))
  track : String → Except String RawTrack

/-- Model of `SpotifyClient.search_tracks`: returns the items of the collaborator, or `[]`
when the collaborator raises. -/
def search_tracks (api : SpotifyAPI) (query : String) (limit : ℕ)
    (offset : ℕ) : List RawTrack :=
  match api.search query limit offset with
  | .ok items => items
  | .error _ => []

/-- Model of `SpotifyClient.get_track_features`: filters `None` entries out of
the collaborator response, or returns `[]` when the collaborator raises.
(The Python method also accepts a single id string, wrapping it into a
one-element list; callers are modelled as passing the list directly.) -/
def get_track_features (api : SpotifyAPI) (track_ids : List String) :
    List FeatureRec :=
  match api.audio_features track_ids with
  | .ok fs => fs.filterMap id
  | .error _ => []

/-- Model of `SpotifyClient.get_track_info`: the metadata dict, or `None` when the
collaborator raises. -/
def get_track_info (api : SpotifyAPI) (track_id : String) : Option TrackInfo :=
  match api.track track_id with
  | .ok t =>
      some { id := t.id, name := t.name, artists := t.artists,
             album := t.album, popularity := t.popularity,
             preview_url := t.preview_url, external_url := t.external_url }
  | .error _ => none

/-- One row of the dataset built by `build_dataset`.  `features` is `none`
in the freshly-built `track_info` dict and becomes `some` by
`track_info.update(features[0])`; rows are only appended after that update. -/
structure DataRow where
  id : String
  name : String
  artist : String
  popularity : ℤ
  genre : String
  features : Option FeatureRec
deriving Repr, DecidableEq

/-- The track-info dict as first constructed inside `build_dataset`. -/
def mkBaseRow (genre : String) (track : RawTrack) : DataRow :=
  { id := track.id, name := track.name,
    artist := track.artists.headD "Unknown",
    popularity := track.popularity, genre := genre, features := none }

/-- Model of `SpotifyClient.build_dataset`: for each genre in order, search
tracks, fetch the audio features of each track, and append the joined row whenever the
feature list is non-empty. -/
def build_dataset (api : SpotifyAPI) (genres : List String)
    (tracks_per_genre : ℕ) : List DataRow :=
  genres.foldl (fun dataset genre =>
    let tracks := search_tracks api ("genre:" ++ genre) tracks_per_genre 0
    tracks.foldl (fun ds track =>
      match get_track_features api [track.id] with
      | [] => ds
      | f :: _ => ds ++ [{ mkBaseRow genre track with features := some f }]) dataset)
    []

/-- The rows contributed by a single genre (a characterisation of the inner
loop of `build_dataset`, proved below). -/
def genre_rows (api : SpotifyAPI) (tracks_per_genre : ℕ) (genre : String) :
    List DataRow :=
  (search_tracks api ("genre:" ++ genre) tracks_per_genre 0).filterMap
    (fun track =>
      match get_track_features api [track.id] with
      | [] => none
      | f :: _ => some { mkBaseRow genre track with features := some f })

/-- Modelled from the spec: `EmotionBasedRecommender.build_track_database`
(file `src/recommendation/recommender.py`, imported by `main.py` and the web
app but not present in the sources).  Per §4.2 the catalog build "is fatal
only if it produces zero usable tracks across all genres, in which case it
fails with `EmptyCatalog`". -/
def build_track_database (api : SpotifyAPI) (genres : List String)
    (tracks_per_genre : ℕ) : Except String (List DataRow) :=
  let d := build_dataset api genres tracks_per_genre
  if d.isEmpty then .error "EmptyCatalog" else .ok d

/-! ## Helper lemmas: the occurrence scan -/

/-- The fuel is irrelevant once it covers the length of the haystack. -/
lemma countOccAux_eq (n : Char) (ns : List Char) :
    ∀ (k fuel1 fuel2 : ℕ) (l : List Char), l.length ≤ k →
      l.length ≤ fuel1 → l.length ≤ fuel2 →
      countOccAux n ns fuel1 l = countOccAux n ns fuel2 l := by
  intro k
  induction k with
  | zero =>
    intro fuel1 fuel2 l hk _ _
    have hl : l = [] := List.length_eq_zero.mp (Nat.le_zero.mp hk)
    subst hl
    cases fuel1 <;> cases fuel2 <;> rfl
  | succ k ih =>
    intro fuel1 fuel2 l hk h1 h2
    match l with
    | [] => cases fuel1 <;> cases fuel2 <;> rfl
    | c :: rest =>
      match fuel1, fuel2 with
      | f1 + 1, f2 + 1 =>
        simp only [countOccAux]
        split
        · have hd : (rest.drop ns.length).length ≤ k := by
            simp only [List.length_drop]
            simp only [List.length_cons] at hk
            omega
          have hd1 : (rest.drop ns.length).length ≤ f1 := by
            simp only [List.length_drop]
            simp only [List.length_cons] at h1
            omega
          have hd2 : (rest.drop ns.length).length ≤ f2 := by
            simp only [List.length_drop]
            simp only [List.length_cons] at h2
            omega
          rw [ih f1 f2 (rest.drop ns.length) hd hd1 hd2]
        · have hr : rest.length ≤ k := by
            simp only [List.length_cons] at hk
            omega
          have hr1 : rest.length ≤ f1 := by
            simp only [List.length_cons] at h1
            omega
          have hr2 : rest.length ≤ f2 := by
            simp only [List.length_cons] at h2
            omega
          exact ih f1 f2 rest hr hr1 hr2

/-- Unfolding equation of the non-overlapping scan. -/
lemma countOcc_cons (n : Char) (ns : List Char) (c : Char) (rest : List Char) :
    countOcc n ns (c :: rest) =
      if (n :: ns).isPrefixOf (c :: rest) then
        1 + countOcc n ns (rest.drop ns.length)
      else
        countOcc n ns rest := by
  unfold countOcc
  simp only [List.length_cons, countOccAux]
  split
  · rw [countOccAux_eq n ns rest.length rest.length (rest.drop ns.length).length
      (rest.drop ns.length) (by simp only [List.length_drop]; omega)
      (by simp only [List.length_drop]; omega) le_rfl]
  · rfl

lemma countOcc_nil (n : Char) (ns : List Char) : countOcc n ns [] = 0 := rfl

/-! ## Helper lemmas: first-max selection -/

/-- Spec-side characterisation of the label selected from a positive score
table: `e` carries the maximum value `v`, and every entry strictly before it
scores strictly below `v` (so the first emotion reaching the maximum wins,
ties broken by the iteration order of the lexicon). -/
def isFirstMax (l : List (String × ℕ)) (e : String) (v : ℕ) : Prop :=
  (∀ p ∈ l, p.2 ≤ v) ∧ ∃ pre suf, l = pre ++ (e, v) :: suf ∧ ∀ p ∈ pre, p.2 < v

lemma argmaxFirst_none_iff (l : List (String × ℕ)) :
    argmaxFirst l = none ↔ l = [] := by
  cases l with
  | nil => simp [argmaxFirst]
  | cons p rest =>
    obtain ⟨e, v⟩ := p
    cases h : argmaxFirst rest <;> simp [argmaxFirst, h] <;> split <;> simp

lemma argmaxFirst_spec :
    ∀ (l : List (String × ℕ)) (e : String) (v : ℕ),
      argmaxFirst l = some (e, v) → isFirstMax l e v := by
  intro l
  induction l with
  | nil => intro e v h; simp [argmaxFirst] at h
  | cons p rest ih =>
    obtain ⟨a, w⟩ := p
    intro e v h
    cases hrest : argmaxFirst rest with
    | none =>
      have hre : rest = [] := (argmaxFirst_none_iff rest).mp hrest
      subst hre
      simp only [argmaxFirst, hrest, Option.some.injEq, Prod.mk.injEq] at h
      obtain ⟨he, hv⟩ := h
      subst he; subst hv
      exact ⟨by simp, [], [], by simp, by simp⟩
    | some q =>
      obtain ⟨e2, v2⟩ := q
      have ⟨ihmax, pre, suf, hdec, hpre⟩ := ih e2 v2 hrest
      simp only [argmaxFirst, hrest] at h
      by_cases hgt : v2 > w
      · rw [if_pos hgt] at h
        simp only [Option.some.injEq, Prod.mk.injEq] at h
        obtain ⟨he, hv⟩ := h
        subst he; subst hv
        refine ⟨?_, (a, w) :: pre, suf, by simp [hdec], ?_⟩
        · intro p hp
          rcases List.mem_cons.mp hp with hp | hp
          · subst hp; exact le_of_lt hgt
          · exact ihmax p hp
        · intro p hp
          rcases List.mem_cons.mp hp with hp | hp
          · subst hp; exact hgt
          · exact hpre p hp
      · rw [if_neg hgt] at h
        simp only [Option.some.injEq, Prod.mk.injEq] at h
        obtain ⟨he, hv⟩ := h
        subst he; subst hv
        refine ⟨?_, [], rest, by simp, by simp⟩
        intro p hp
        rcases List.mem_cons.mp hp with hp | hp
        · subst hp; exact le_rfl
        · exact le_trans (ihmax p hp) (Nat.le_of_not_lt hgt)

lemma argmaxFirst_mem {l : List (String × ℕ)} {e : String} {v : ℕ}
    (h : argmaxFirst l = some (e, v)) : (e, v) ∈ l := by
  obtain ⟨_, pre, suf, hdec, _⟩ := argmaxFirst_spec l e v h
  rw [hdec]
  simp

/-! ## Helper lemmas: stripping whitespace never changes a keyword count -/

/-- A match of a pattern with a non-space head cannot start on a space, so
leading whitespace never contributes occurrences. -/
lemma countOcc_dropWhile_space {n : Char} (ns : List Char)
    (hn : isSpaceChar n = false) :
    ∀ l : List Char, countOcc n ns (l.dropWhile isSpaceChar) = countOcc n ns l := by
  intro l
  induction l with
  | nil => rfl
  | cons c rest ih =>
    rw [List.dropWhile_cons]
    by_cases hc : isSpaceChar c
    · rw [if_pos hc]
      have hnp : ¬ ((n :: ns).isPrefixOf (c :: rest) = true) := by
        intro hpre
        obtain ⟨hnc, -⟩ := List.cons_prefix_cons.mp (List.isPrefixOf_iff_prefix.mp hpre)
        rw [hnc] at hn
        simp [hn] at hc
      rw [countOcc_cons, if_neg hnp]
      exact ih
    · rw [if_neg hc]

/-- A space-free pattern never occurs in all-space text. -/
lemma countOcc_all_space {n : Char} (ns : List Char)
    (hn : isSpaceChar n = false) :
    ∀ s : List Char, (∀ c ∈ s, isSpaceChar c = true) → countOcc n ns s = 0 := by
  intro s
  induction s with
  | nil => intro _; rfl
  | cons c rest ih =>
    intro hs
    have hnp : ¬ ((n :: ns).isPrefixOf (c :: rest) = true) := by
      intro hpre
      obtain ⟨hnc, -⟩ := List.cons_prefix_cons.mp (List.isPrefixOf_iff_prefix.mp hpre)
      rw [hnc] at hn
      rw [hs c (List.mem_cons_self _ _)] at hn
      exact Bool.noConfusion hn
    rw [countOcc_cons, if_neg hnp]
    exact ih (fun d hd => hs d (List.mem_cons_of_mem _ hd))

/-- A space-free pattern that is a prefix of `rest ++ s` with `s` all-space
is already a prefix of `rest`. -/
lemma prefix_drop_space (s : List Char) (hs : ∀ c ∈ s, isSpaceChar c = true) :
    ∀ (ns rest : List Char), (∀ c ∈ ns, isSpaceChar c = false) →
      ns <+: rest ++ s → ns <+: rest := by
  intro ns
  induction ns with
  | nil => intro rest _ _; exact List.nil_prefix
  | cons a ns ih =>
    intro rest hfree hpre
    match rest with
    | [] =>
      exfalso
      rw [List.nil_append] at hpre
      match s, hpre with
      | b :: s, h =>
        obtain ⟨hab, -⟩ := List.cons_prefix_cons.mp h
        have h1 := hfree a (List.mem_cons_self _ _)
        have h2 := hs b (List.mem_cons_self _ _)
        rw [hab] at h1
        rw [h1] at h2
        exact Bool.noConfusion h2
    | b :: rest =>
      rw [List.cons_append] at hpre
      obtain ⟨hab, htail⟩ := List.cons_prefix_cons.mp hpre
      exact List.cons_prefix_cons.mpr
        ⟨hab, ih rest (fun c hc => hfree c (List.mem_cons_of_mem _ hc)) htail⟩

/-- Appending all-space text never changes the count of a space-free
pattern. -/
lemma countOcc_append_space (n : Char) (ns : List Char)
    (hn : ∀ c ∈ n :: ns, isSpaceChar c = false)
    (s : List Char) (hs : ∀ c ∈ s, isSpaceChar c = true) :
    ∀ (k : ℕ) (l : List Char), l.length ≤ k →
      countOcc n ns (l ++ s) = countOcc n ns l := by
  intro k
  induction k with
  | zero =>
    intro l hl
    have hnil : l = [] := List.length_eq_zero.mp (Nat.le_zero.mp hl)
    subst hnil
    rw [List.nil_append, countOcc_nil]
    exact countOcc_all_space ns (hn n (List.mem_cons_self _ _)) s hs
  | succ k ih =>
    intro l hl
    match l with
    | [] =>
      rw [List.nil_append, countOcc_nil]
      exact countOcc_all_space ns (hn n (List.mem_cons_self _ _)) s hs
    | c :: rest =>
      rw [List.cons_append]
      by_cases hp2 : (n :: ns).isPrefixOf (c :: rest) = true
      · have hpre : (n :: ns) <+: (c :: rest) := List.isPrefixOf_iff_prefix.mp hp2
        have hp1 : (n :: ns).isPrefixOf (c :: (rest ++ s)) = true := by
          apply List.isPrefixOf_iff_prefix.mpr
          have : (c :: rest) <+: (c :: rest) ++ s := List.prefix_append _ _
          rw [List.cons_append] at this
          exact hpre.trans this
        rw [countOcc_cons, if_pos hp1, countOcc_cons, if_pos hp2]
        have hlen : ns.length ≤ rest.length := by
          have := hpre.length_le
          simp only [List.length_cons] at this
          omega
        rw [List.drop_append_of_le_length hlen]
        have hdl : (rest.drop ns.length).length ≤ k := by
          simp only [List.length_drop]
          simp only [List.length_cons] at hl
          omega
        rw [ih (rest.drop ns.length) hdl]
      · have hp1 : ¬ ((n :: ns).isPrefixOf (c :: (rest ++ s)) = true) := by
          intro h1
          apply hp2
          obtain ⟨hnc, htail⟩ := List.cons_prefix_cons.mp (List.isPrefixOf_iff_prefix.mp h1)
          refine List.isPrefixOf_iff_prefix.mpr (List.cons_prefix_cons.mpr ⟨hnc, ?_⟩)
          exact prefix_drop_space s hs ns rest
            (fun c hc => hn c (List.mem_cons_of_mem _ hc)) htail
        rw [countOcc_cons, if_neg hp1, countOcc_cons, if_neg hp2]
        have hrl : rest.length ≤ k := by
          simp only [List.length_cons] at hl
          omega
        exact ih rest hrl

/-- The text after `dropWhile` splits as the stripped text plus an all-space
tail. -/
lemma dropWhile_eq_pyStrip_append (l : List Char) :
    ∃ t, l.dropWhile isSpaceChar = pyStrip l ++ t ∧ ∀ c ∈ t, isSpaceChar c = true := by
  refine ⟨((l.dropWhile isSpaceChar).reverse.takeWhile isSpaceChar).reverse, ?_, ?_⟩
  · unfold pyStrip
    have h := List.takeWhile_append_dropWhile isSpaceChar (l.dropWhile isSpaceChar).reverse
    calc l.dropWhile isSpaceChar
        = ((l.dropWhile isSpaceChar).reverse).reverse := (List.reverse_reverse _).symm
      _ = (List.takeWhile isSpaceChar (l.dropWhile isSpaceChar).reverse ++
            List.dropWhile isSpaceChar (l.dropWhile isSpaceChar).reverse).reverse := by
          rw [h]
      _ = _ := by rw [List.reverse_append]
  · intro c hc
    rw [List.mem_reverse] at hc
    exact List.mem_takeWhile_imp hc

/-- Stripping surrounding whitespace changes no count of a non-empty,
space-free keyword. -/
lemma pyCount_pyStrip (kw : String) (l : List Char)
    (hne : kw.data ≠ []) (hfree : ∀ c ∈ kw.data, isSpaceChar c = false) :
    pyCount kw (pyStrip l) = pyCount kw l := by
  cases hkw : kw.data with
  | nil => exact absurd hkw hne
  | cons n ns =>
    rw [hkw] at hfree
    obtain ⟨t, hdec, ht⟩ := dropWhile_eq_pyStrip_append l
    have h1 : countOcc n ns (l.dropWhile isSpaceChar) = countOcc n ns l :=
      countOcc_dropWhile_space ns (hfree n (List.mem_cons_self _ _)) l
    have h2 : countOcc n ns (pyStrip l ++ t) = countOcc n ns (pyStrip l) :=
      countOcc_append_space n ns hfree t ht (pyStrip l).length (pyStrip l) le_rfl
    simp only [pyCount, hkw]
    rw [← h2, ← hdec, h1]

/-! ## Helper lemmas: keyword scores as sums of counts -/

/-- The preprocessing exactly as the spec describes it: lowercase and delete
every character outside `[\w\s.,!?]` (the edge-strip performed by the source
in addition changes no keyword count, by `pyCount_pyStrip`). -/
def claimClean (s : List Char) : List Char :=
  (pyLower s).filter keepChar

lemma preprocess_eq_strip_claimClean (s : List Char) :
    preprocess_text s = pyStrip (claimClean s) := rfl

/-- Every keyword of the lexicon is non-empty and space-free. -/
lemma keywords_wf :
    ∀ p ∈ emotionKeywords, ∀ kw ∈ p.2,
      kw.data ≠ [] ∧ ∀ c ∈ kw.data, isSpaceChar c = false := by decide

/-- The accumulator loop is the sum of the per-keyword counts. -/
lemma foldl_add_count (f : String → ℕ) :
    ∀ (kws : List String) (init : ℕ),
      kws.foldl (fun acc kw => acc + f kw) init = init + (kws.map f).sum := by
  intro kws
  induction kws with
  | nil => intro init; simp
  | cons kw rest ih => intro init; simp [ih, Nat.add_assoc]

lemma keyword_score_eq_sum (t : List Char) (kws : List String) :
    keyword_score t kws = (kws.map (fun kw => pyCount kw t)).sum := by
  unfold keyword_score
  rw [foldl_add_count (fun kw => pyCount kw t) kws 0, Nat.zero_add]

/-! ## Helper lemmas: the catalog build decomposes per genre -/

/-- The inner track loop of `build_dataset` only ever appends rows. -/
lemma build_rows_foldl (api : SpotifyAPI) (genre : String) :
    ∀ (tracks : List RawTrack) (init : List DataRow),
      tracks.foldl (fun ds track =>
        match get_track_features api [track.id] with
        | [] => ds
        | f :: _ => ds ++ [{ mkBaseRow genre track with features := some f }]) init =
      init ++ tracks.filterMap (fun track =>
        match get_track_features api [track.id] with
        | [] => none
        | f :: _ => some { mkBaseRow genre track with features := some f }) := by
  intro tracks
  induction tracks with
  | nil => intro init; simp
  | cons t ts ih =>
    intro init
    rw [List.foldl_cons, List.filterMap_cons]
    cases h : get_track_features api [t.id] with
    | nil => simp only [h]; rw [ih]
    | cons f fs => simp only [h]; rw [ih, List.append_assoc]; rfl

/-- The catalog is the concatenation of the per-genre row lists, in genre
order. -/
lemma build_dataset_eq_join (api : SpotifyAPI) (genres : List String) (tpg : ℕ) :
    build_dataset api genres tpg = (genres.map (genre_rows api tpg)).flatten := by
  suffices h : ∀ (gs : List String) (init : List DataRow),
      gs.foldl (fun dataset genre =>
        (search_tracks api ("genre:" ++ genre) tpg 0).foldl (fun ds track =>
          match get_track_features api [track.id] with
          | [] => ds
          | f :: _ => ds ++ [{ mkBaseRow genre track with features := some f }]) dataset)
        init =
      init ++ (gs.map (genre_rows api tpg)).flatten by
    simpa [build_dataset] using h genres []
  intro gs
  induction gs with
  | nil => intro init; simp
  | cons g gs ih =>
    intro init
    rw [List.foldl_cons, build_rows_foldl, ih]
    simp [genre_rows, List.append_assoc]

/-- A collaborator failure on one genre contributes no rows for that genre
(and, by `build_dataset_eq_join`, touches no other genre). -/
lemma genre_rows_of_search_error (api : SpotifyAPI) (tpg : ℕ) (g : String)
    (e : String) (h : api.search ("genre:" ++ g) tpg 0 = .error e) :
    genre_rows api tpg g = [] := by
  unfold genre_rows search_tracks
  rw [h]
  rfl

/-- Ids of the rows of one genre: every searched track with a non-empty
feature fetch contributes exactly one row carrying its id. -/
lemma genre_rows_map_id (api : SpotifyAPI) (tpg : ℕ) (g : String) :
    (genre_rows api tpg g).map DataRow.id =
      ((search_tracks api ("genre:" ++ g) tpg 0).filter
        (fun track => !(get_track_features api [track.id]).isEmpty)).map RawTrack.id := by
  unfold genre_rows
  generalize search_tracks api ("genre:" ++ g) tpg 0 = tracks
  induction tracks with
  | nil => rfl
  | cons t ts ih =>
    rw [List.filterMap_cons, List.filter_cons]
    cases h : get_track_features api [t.id] with
    | nil => simpa [h] using ih
    | cons f fs => simpa [h, mkBaseRow] using ih

/-- Membership in the per-genre rows. -/
lemma mem_genre_rows {api : SpotifyAPI} {tpg : ℕ} {g : String} {row : DataRow} :
    row ∈ genre_rows api tpg g ↔
      ∃ track ∈ search_tracks api ("genre:" ++ g) tpg 0,
        ∃ f fs, get_track_features api [track.id] = f :: fs ∧
          row = { mkBaseRow g track with features := some f } := by
  unfold genre_rows
  rw [List.mem_filterMap]
  constructor
  · rintro ⟨track, htr, hmk⟩
    cases h : get_track_features api [track.id] with
    | nil => rw [h] at hmk; simp at hmk
    | cons f fs =>
      rw [h] at hmk
      simp only [Option.some.injEq] at hmk
      exact ⟨track, htr, f, fs, h, hmk.symm⟩
  · rintro ⟨track, htr, f, fs, h, hrow⟩
    exact ⟨track, htr, by rw [h, hrow]⟩

/-! ## Helper lemmas: the detection pipeline -/

/-- The record assembled by the success path of the pipeline on preprocessed
text `t`. -/
def pipelineResult (s : SentimentScores) (ps : ℚ × ℚ) (t : List Char) :
    DetectResult :=
  { emotion := determine_primary_emotion s ps.1 (detect_emotions_by_keywords t),
    confidence := calculate_confidence s (detect_emotions_by_keywords t),
    sentiment_scores := s,
    textblob_polarity := ps.1,
    textblob_subjectivity := ps.2,
    keyword_emotions := detect_emotions_by_keywords t,
    music_features := (dictGet emotionMapping
      (determine_primary_emotion s ps.1 (detect_emotions_by_keywords t))).getD
      neutralFeatures }

/-- On non-blank input with succeeding collaborators, the detector returns
exactly the record assembled by the pipeline. -/
lemma detect_ok (o : TextOracles) (text : List Char) (s : SentimentScores)
    (ps : ℚ × ℚ) (hne : pyStrip text ≠ [])
    (hv : o.polarity_scores (preprocess_text text) = .ok s)
    (hb : o.textblob_sentiment (preprocess_text text) = .ok ps) :
    detect_emotion_from_text o text =
      (some (pipelineResult s ps (preprocess_text text)), none) := by
  have hcond : ¬ (text = [] ∨ pyStrip text = []) := by
    rintro (rfl | h)
    · exact hne rfl
    · exact hne h
  simp only [detect_emotion_from_text, if_neg hcond, hv, hb]
  rfl

/-- The spec decision table of Step C, exactly as the spec words it. -/
def specSentimentLabel (s : SentimentScores) : String :=
  if s.compound ≥ 5/10 then "happy"
  else if s.compound ≤ -(5/10) then
    (if s.neg > 5/10 ∧ s.compound ≤ -(7/10) then "angry" else "sad")
  else if 1/10 < s.compound ∧ s.compound < 5/10 then
    (if s.pos > s.neu then "happy" else "neutral")
  else if -(5/10) < s.compound ∧ s.compound < -(1/10) then "sad"
  else "neutral"

/-- With a strictly positive maximal keyword score, the label is the first
key attaining the maximum, whatever the sentiment values. -/
lemma determine_of_maxpos {s : SentimentScores} {pb : ℚ}
    {kw : List (String × ℕ)} {e : String} {v : ℕ}
    (h : argmaxFirst kw = some (e, v)) (hv : 0 < v) :
    determine_primary_emotion s pb kw = e := by
  simp only [determine_primary_emotion, h, Option.getD_some]
  simp [hv]

/-- With all keyword scores zero, the label follows exactly the spec decision
table over the sentiment scores. -/
lemma determine_of_allzero (s : SentimentScores) (pb : ℚ)
    (kw : List (String × ℕ)) (hz : ∀ p ∈ kw, p.2 = 0) :
    determine_primary_emotion s pb kw = specSentimentLabel s := by
  have hbest : ((argmaxFirst kw).getD ("", 0)).2 = 0 := by
    cases h : argmaxFirst kw with
    | none => rfl
    | some p =>
      obtain ⟨e, v⟩ := p
      simpa using hz (e, v) (argmaxFirst_mem h)
  have hguard : ¬ (((argmaxFirst kw).getD ("", 0)).2 > 0) := by
    rw [hbest]
    exact lt_irrefl 0
  simp only [determine_primary_emotion, specSentimentLabel]
  rw [if_neg hguard]
  by_cases hA : s.compound ≥ 5/10
  · rw [if_pos hA, if_pos hA]
  rw [if_neg hA, if_neg hA]
  by_cases hB : s.compound ≤ -(5/10)
  · rw [if_pos hB, if_pos hB]
    by_cases hC : s.neg > 5/10
    · by_cases hD : s.compound ≤ -(7/10)
      · rw [if_pos hC, if_pos hD, if_pos ⟨hC, hD⟩]
      · have hs2 : ¬ (s.neg > 5/10 ∧ s.compound ≤ -(7/10)) := fun h => hD h.2
        rw [if_pos hC, if_neg hD, if_neg hs2]
    · have hs2 : ¬ (s.neg > 5/10 ∧ s.compound ≤ -(7/10)) := fun h => hC h.1
      rw [if_neg hC, if_neg hs2]
  · rw [if_neg hB, if_neg hB]
    by_cases hC : s.compound > 1/10
    · have hcd : 1/10 < s.compound ∧ s.compound < 5/10 := ⟨hC, lt_of_not_ge hA⟩
      rw [if_pos hC, if_pos hcd]
    · have hs3 : ¬ (1/10 < s.compound ∧ s.compound < 5/10) := fun h => hC h.1
      rw [if_neg hC, if_neg hs3]
      by_cases hD : s.compound < -(1/10)
      · have hcd : -(5/10) < s.compound ∧ s.compound < -(1/10) :=
          ⟨not_le.mp hB, hD⟩
        rw [if_pos hD, if_pos hcd]
      · have hs4 : ¬ (-(5/10) < s.compound ∧ s.compound < -(1/10)) := fun h => hD h.2
        rw [if_neg hD, if_neg hs4]

/-! ## Helper lemmas: confidence -/

/-- The Step D confidence formula exactly as the spec states it. -/
def specConfidence (s : SentimentScores) (kw : List (String × ℕ)) : ℚ :=
  pyRound3 (min (|s.compound| + min ((maxValues kw : ℚ) * (1/10)) (3/10)) 1)

lemma calculate_confidence_eq (s : SentimentScores) (kw : List (String × ℕ)) :
    calculate_confidence s kw = specConfidence s kw := by
  cases kw with
  | nil => simp [calculate_confidence, specConfidence, maxValues]
  | cons p l => simp [calculate_confidence, specConfidence]

lemma pyRound3_bounds (q : ℚ) (h0 : 0 ≤ q) (h1 : q ≤ 1) :
    0 ≤ pyRound3 q ∧ pyRound3 q ≤ 1 := by
  have hl : (0 : ℤ) ≤ round (q * 1000) := by
    rw [round_eq]
    exact Int.le_floor.mpr (by push_cast; linarith)
  have hu : round (q * 1000) ≤ 1000 := by
    rw [round_eq]
    have hlt : ((q * 1000 + 1/2 : ℚ)) < ((1001 : ℤ) : ℚ) := by push_cast; linarith
    have h2 := Int.floor_lt.mpr hlt
    omega
  constructor
  · unfold pyRound3
    apply div_nonneg _ (by norm_num)
    exact_mod_cast hl
  · unfold pyRound3
    rw [div_le_one (by norm_num)]
    exact_mod_cast hu

lemma calculate_confidence_bounds (s : SentimentScores) (kw : List (String × ℕ)) :
    0 ≤ calculate_confidence s kw ∧ calculate_confidence s kw ≤ 1 := by
  rw [calculate_confidence_eq]
  unfold specConfidence
  apply pyRound3_bounds
  · apply le_min _ (by norm_num)
    have h1 : (0:ℚ) ≤ |s.compound| := abs_nonneg _
    have h2 : (0:ℚ) ≤ min ((maxValues kw : ℚ) * (1/10)) (3/10) :=
      le_min (mul_nonneg (Nat.cast_nonneg _) (by norm_num)) (by norm_num)
    linarith
  · exact min_le_right _ _

/-! ## Helper lemmas: the label always keys the feature table -/

/-- Whatever the pipeline decides, the label is a key of `emotion_mapping`. -/
lemma label_in_mapping (s : SentimentScores) (pb : ℚ) (t : List Char) :
    ∃ row, dictGet emotionMapping
      (determine_primary_emotion s pb (detect_emotions_by_keywords t)) = some row := by
  by_cases hpos : ((argmaxFirst (detect_emotions_by_keywords t)).getD ("", 0)).2 > 0
  · cases h : argmaxFirst (detect_emotions_by_keywords t) with
    | none =>
      rw [h] at hpos
      simp at hpos
    | some p =>
      obtain ⟨e, v⟩ := p
      have hmem : (e, v) ∈ detect_emotions_by_keywords t := argmaxFirst_mem h
      have hvpos : 0 < v := by
        rw [h] at hpos
        simpa using hpos
      rw [determine_of_maxpos h hvpos]
      have hkeys : e ∈ emotionKeywords.map Prod.fst := by
        unfold detect_emotions_by_keywords at hmem
        obtain ⟨p, hp, hpe⟩ := List.mem_map.mp hmem
        have he : p.1 = e := congrArg Prod.fst hpe
        rw [← he]
        exact List.mem_map_of_mem Prod.fst hp
      simp only [emotionKeywords, List.map_cons, List.map_nil] at hkeys
      fin_cases hkeys <;> exact ⟨_, rfl⟩
  · simp only [determine_primary_emotion, if_neg hpos]
    split_ifs <;> exact ⟨_, rfl⟩

/-! ## Helper lemmas: the error paths of the detector -/

lemma detect_empty (o : TextOracles) (text : List Char)
    (h : text = [] ∨ pyStrip text = []) :
    detect_emotion_from_text o text = (none, some "Empty text provided") := by
  simp only [detect_emotion_from_text, if_pos h]

lemma detect_vader_error (o : TextOracles) (text : List Char) (e : String)
    (hne : pyStrip text ≠ [])
    (hv : o.polarity_scores (preprocess_text text) = .error e) :
    detect_emotion_from_text o text =
      (none, some ("Error analyzing text emotion: " ++ e)) := by
  have hcond : ¬ (text = [] ∨ pyStrip text = []) := by
    rintro (rfl | h)
    · exact hne rfl
    · exact hne h
  simp only [detect_emotion_from_text, if_neg hcond, hv]

lemma detect_blob_error (o : TextOracles) (text : List Char)
    (s : SentimentScores) (e : String) (hne : pyStrip text ≠ [])
    (hv : o.polarity_scores (preprocess_text text) = .ok s)
    (hb : o.textblob_sentiment (preprocess_text text) = .error e) :
    detect_emotion_from_text o text =
      (none, some ("Error analyzing text emotion: " ++ e)) := by
  have hcond : ¬ (text = [] ∨ pyStrip text = []) := by
    rintro (rfl | h)
    · exact hne rfl
    · exact hne h
  simp only [detect_emotion_from_text, if_neg hcond, hv, hb]

/-! ## Concrete fixtures used by the witnesses -/

/-- A sentiment oracle with neutral scores. -/
def okOracle : TextOracles :=
  { polarity_scores := fun _ => .ok ⟨0, 0, 0, 1⟩,
    textblob_sentiment := fun _ => .ok (0, 0) }

/-- A sentiment oracle with clearly positive scores. -/
def okOracle2 : TextOracles :=
  { polarity_scores := fun _ => .ok ⟨6/10, 2/10, 1/10, 7/10⟩,
    textblob_sentiment := fun _ => .ok (1/10, 1/2) }

/-- A sentiment oracle whose VADER analyzer raises. -/
def failOracle : TextOracles :=
  { polarity_scores := fun _ => .error "boom",
    textblob_sentiment := fun _ => .ok (0, 0) }

def trackA : RawTrack := ⟨"t1", "Song A", ["Artist A"], "Album A", 80, "pv", "ext"⟩

def trackB : RawTrack := ⟨"t2", "Song B", [], "Album B", 10, "pv2", "ext2"⟩

def featA : FeatureRec := ⟨1/2, 3/5, 7/10, 120⟩

/-- A collaborator knowing one genre: the pop search returns two tracks, of
which only `t1` has audio features; every other genre search raises. -/
def apiOk : SpotifyAPI :=
  { search := fun q _ _ => if q = "genre:pop" then .ok [trackA, trackB] else .error "down",
    audio_features := fun ids => if ids = ["t1"] then .ok [some featA] else .ok [none],
    track := fun _ => .error "down" }

/-- A collaborator that always raises. -/
def apiFail : SpotifyAPI :=
  { search := fun _ _ _ => .error "down",
    audio_features := fun _ => .error "down",
    track := fun _ => .error "down" }

/-- A collaborator returning the same track, with features, for every genre
search. -/
def apiDup : SpotifyAPI :=
  { search := fun _ _ _ => .ok [trackA],
    audio_features := fun _ => .ok [some featA],
    track := fun _ => .error "down" }

/-! ## Claim theorems -/

/-- C1: for every input text whose computed keyword scores contain at least
one strictly positive count, `detect_emotion_from_text` returns as its label
the emotion with the maximum keyword score — ties broken by the fixed
iteration order of the keyword lexicon, the first emotion reaching the
maximum winning — and the sentiment scores have no influence on the label
(two runs with arbitrary, different sentiment outputs agree). -/
theorem C1_keyword_label_priority
    (o o2 : TextOracles) (text : List Char) (s s2 : SentimentScores)
    (ps ps2 : ℚ × ℚ) (hne : pyStrip text ≠ [])
    (hv : o.polarity_scores (preprocess_text text) = .ok s)
    (hb : o.textblob_sentiment (preprocess_text text) = .ok ps)
    (hv2 : o2.polarity_scores (preprocess_text text) = .ok s2)
    (hb2 : o2.textblob_sentiment (preprocess_text text) = .ok ps2)
    (hpos : ∃ p ∈ detect_emotions_by_keywords (preprocess_text text), 0 < p.2) :
    ∃ r r2, (detect_emotion_from_text o text).1 = some r ∧
      (detect_emotion_from_text o2 text).1 = some r2 ∧
      (∃ v, isFirstMax (detect_emotions_by_keywords (preprocess_text text))
        r.emotion v) ∧
      r2.emotion = r.emotion := by
  obtain ⟨p0, hp0, hp0pos⟩ := hpos
  have hnil : detect_emotions_by_keywords (preprocess_text text) ≠ [] :=
    List.ne_nil_of_mem hp0
  obtain ⟨q, hq⟩ : ∃ q, argmaxFirst
      (detect_emotions_by_keywords (preprocess_text text)) = some q := by
    cases h : argmaxFirst (detect_emotions_by_keywords (preprocess_text text)) with
    | none => exact absurd ((argmaxFirst_none_iff _).mp h) hnil
    | some q => exact ⟨q, rfl⟩
  obtain ⟨e, v⟩ := q
  have hspec := argmaxFirst_spec _ e v hq
  have hvpos : 0 < v := lt_of_lt_of_le hp0pos (hspec.1 p0 hp0)
  have hl1 : determine_primary_emotion s ps.1
      (detect_emotions_by_keywords (preprocess_text text)) = e :=
    determine_of_maxpos hq hvpos
  have hl2 : determine_primary_emotion s2 ps2.1
      (detect_emotions_by_keywords (preprocess_text text)) = e :=
    determine_of_maxpos hq hvpos
  refine ⟨pipelineResult s ps (preprocess_text text),
    pipelineResult s2 ps2 (preprocess_text text), ?_, ?_, ⟨v, ?_⟩, ?_⟩
  · rw [detect_ok o text s ps hne hv hb]
  · rw [detect_ok o2 text s2 ps2 hne hv2 hb2]
  · show isFirstMax _ (determine_primary_emotion s ps.1 _) v
    rw [hl1]
    exact hspec
  · show determine_primary_emotion s2 ps2.1 _ = determine_primary_emotion s ps.1 _
    rw [hl1, hl2]

/-- Witness for C1 at the concrete text `happy` with two different sentiment
oracles. -/
theorem C1_witness :
    ∃ r r2, (detect_emotion_from_text okOracle "happy".data).1 = some r ∧
      (detect_emotion_from_text okOracle2 "happy".data).1 = some r2 ∧
      (∃ v, isFirstMax (detect_emotions_by_keywords (preprocess_text "happy".data))
        r.emotion v) ∧
      r2.emotion = r.emotion :=
  C1_keyword_label_priority okOracle okOracle2 "happy".data ⟨0, 0, 0, 1⟩
    ⟨6/10, 2/10, 1/10, 7/10⟩ (0, 0) (1/10, 1/2) (by decide) rfl rfl rfl rfl
    (by decide)

/-- C2: for every input text whose keyword scores are all zero, the label
returned by `detect_emotion_from_text` is a pure function of the sentiment
scores, exactly per the Step C decision table (`specSentimentLabel`). -/
theorem C2_sentiment_fallback
    (o : TextOracles) (text : List Char) (s : SentimentScores) (ps : ℚ × ℚ)
    (hne : pyStrip text ≠ [])
    (hv : o.polarity_scores (preprocess_text text) = .ok s)
    (hb : o.textblob_sentiment (preprocess_text text) = .ok ps)
    (hz : ∀ p ∈ detect_emotions_by_keywords (preprocess_text text), p.2 = 0) :
    ∃ r, (detect_emotion_from_text o text).1 = some r ∧
      r.emotion = specSentimentLabel s := by
  refine ⟨pipelineResult s ps (preprocess_text text), ?_, ?_⟩
  · rw [detect_ok o text s ps hne hv hb]
  · show determine_primary_emotion s ps.1 _ = specSentimentLabel s
    exact determine_of_allzero s ps.1 _ hz

/-- Witness for C2 at the concrete keyword-free text `ok` with compound
`0.6`, which the decision table sends to `happy`. -/
theorem C2_witness :
    (∃ r, (detect_emotion_from_text okOracle2 "ok".data).1 = some r ∧
      r.emotion = specSentimentLabel ⟨6/10, 2/10, 1/10, 7/10⟩) ∧
      specSentimentLabel ⟨6/10, 2/10, 1/10, 7/10⟩ = "happy" := by
  constructor
  · exact C2_sentiment_fallback okOracle2 "ok".data ⟨6/10, 2/10, 1/10, 7/10⟩
      (1/10, 1/2) (by decide) rfl rfl (by decide)
  · norm_num [specSentimentLabel]

/-- C3: on every success of `detect_emotion_from_text` the returned
confidence equals the Step D formula (minimum of one and the absolute
compound plus the capped keyword boost, rounded to three decimals), it lies
in `[0, 1]`, and at compound `0.9` with maximal keyword score `5` the
confidence is exactly `1`. -/
theorem C3_confidence_formula :
    (∀ (o : TextOracles) (text : List Char) (s : SentimentScores) (ps : ℚ × ℚ),
       pyStrip text ≠ [] →
       o.polarity_scores (preprocess_text text) = .ok s →
       o.textblob_sentiment (preprocess_text text) = .ok ps →
       ∃ r, (detect_emotion_from_text o text).1 = some r ∧
         r.confidence =
           specConfidence s (detect_emotions_by_keywords (preprocess_text text)) ∧
         0 ≤ r.confidence ∧ r.confidence ≤ 1)
    ∧ calculate_confidence ⟨9/10, 1/4, 1/4, 1/2⟩
        [("happy", 5), ("sad", 0), ("angry", 0), ("fear", 0), ("surprise", 0),
         ("disgust", 0), ("love", 0), ("calm", 0)] = 1 := by
  constructor
  · intro o text s ps hne hv hb
    refine ⟨pipelineResult s ps (preprocess_text text), ?_, ?_, ?_, ?_⟩
    · rw [detect_ok o text s ps hne hv hb]
    · exact calculate_confidence_eq s _
    · exact (calculate_confidence_bounds s _).1
    · exact (calculate_confidence_bounds s _).2
  · unfold calculate_confidence maxValues pyRound3
    norm_num [round_eq, min_def, abs_of_nonneg]

/-- Witness for C3 at the concrete text `happy` with the positive oracle. -/
theorem C3_witness :
    ∃ r, (detect_emotion_from_text okOracle2 "happy".data).1 = some r ∧
      r.confidence = specConfidence ⟨6/10, 2/10, 1/10, 7/10⟩
        (detect_emotions_by_keywords (preprocess_text "happy".data)) ∧
      0 ≤ r.confidence ∧ r.confidence ≤ 1 :=
  C3_confidence_formula.1 okOracle2 "happy".data ⟨6/10, 2/10, 1/10, 7/10⟩
    (1/10, 1/2) (by decide) rfl rfl

/-- C6: on every success the attached music features are exactly the
`emotion_mapping` row of the returned label (the table has the constants the
spec lists, e.g. the happy row), and a label whose lowercasing is not a key
of the table is sent to the neutral row by
`get_music_features_for_emotion`. -/
theorem C6_feature_table :
    (∀ (o : TextOracles) (text : List Char) (s : SentimentScores) (ps : ℚ × ℚ),
        pyStrip text ≠ [] →
        o.polarity_scores (preprocess_text text) = .ok s →
        o.textblob_sentiment (preprocess_text text) = .ok ps →
        ∃ r, (detect_emotion_from_text o text).1 = some r ∧
          dictGet emotionMapping r.emotion = some r.music_features)
    ∧ dictGet emotionMapping "happy" = some ⟨8/10, 7/10, 8/10, 120⟩
    ∧ neutralFeatures = ⟨5/10, 5/10, 5/10, 110⟩
    ∧ (∀ e : String, dictGet emotionMapping ⟨pyLower e.data⟩ = none →
        get_music_features_for_emotion e = neutralFeatures)
    ∧ (∀ (e : String) (row : MusicFeatures),
        dictGet emotionMapping ⟨pyLower e.data⟩ = some row →
        get_music_features_for_emotion e = row) := by
  refine ⟨?_, rfl, rfl, ?_, ?_⟩
  · intro o text s ps hne hv hb
    refine ⟨pipelineResult s ps (preprocess_text text), ?_, ?_⟩
    · rw [detect_ok o text s ps hne hv hb]
    · obtain ⟨row, hrow⟩ := label_in_mapping s ps.1 (preprocess_text text)
      show dictGet emotionMapping (determine_primary_emotion s ps.1 _) =
        some ((dictGet emotionMapping (determine_primary_emotion s ps.1 _)).getD
          neutralFeatures)
      rw [hrow]
      rfl
  · intro e h
    unfold get_music_features_for_emotion
    rw [h]
    rfl
  · intro e row h
    unfold get_music_features_for_emotion
    rw [h]
    rfl

/-- Witness for C6: a concrete successful run, plus the fallback at the
unknown label `bogus` and the table lookup at the mixed-case label `HAPPY`. -/
theorem C6_witness :
    (∃ r, (detect_emotion_from_text okOracle "happy".data).1 = some r ∧
      dictGet emotionMapping r.emotion = some r.music_features)
    ∧ get_music_features_for_emotion "bogus" = neutralFeatures
    ∧ get_music_features_for_emotion "HAPPY" = ⟨8/10, 7/10, 8/10, 120⟩ := by
  refine ⟨C6_feature_table.1 okOracle "happy".data ⟨0, 0, 0, 1⟩ (0, 0)
    (by decide) rfl rfl, ?_, ?_⟩
  · exact C6_feature_table.2.2.2.1 "bogus" rfl
  · exact C6_feature_table.2.2.2.2 "HAPPY" ⟨8/10, 7/10, 8/10, 120⟩ rfl

/-- C7: for every input text, the keyword score of each emotion is the sum,
over the fixed keyword list of that emotion, of the non-overlapping
occurrence counts of the keyword in the preprocessed text — preprocessing
being lowercasing plus deletion of every character outside word characters,
whitespace and `. , ! ?` (`claimClean`) — each score being a non-negative
integer, and the scores attached to a successful detection being exactly
these. -/
theorem C7_keyword_scores :
    (∀ text : List Char,
        detect_emotions_by_keywords (preprocess_text text) =
          emotionKeywords.map (fun p =>
            (p.1, (p.2.map (fun kw => pyCount kw (claimClean text))).sum)))
    ∧ (∀ (t : List Char) (p : String × ℕ),
        p ∈ detect_emotions_by_keywords t → 0 ≤ (p.2 : ℤ))
    ∧ (∀ (o : TextOracles) (text : List Char) (r : DetectResult)
        (err : Option String),
        detect_emotion_from_text o text = (some r, err) →
        r.keyword_emotions = detect_emotions_by_keywords (preprocess_text text)) := by
  refine ⟨?_, ?_, ?_⟩
  · intro text
    unfold detect_emotions_by_keywords
    apply List.map_congr_left
    intro p hp
    have hks : keyword_score (preprocess_text text) p.2 =
        (p.2.map (fun kw => pyCount kw (claimClean text))).sum := by
      rw [keyword_score_eq_sum]
      congr 1
      apply List.map_congr_left
      intro kw hkw
      rw [preprocess_eq_strip_claimClean]
      exact pyCount_pyStrip kw (claimClean text) (keywords_wf p hp kw hkw).1
        (keywords_wf p hp kw hkw).2
    rw [hks]
  · intro t p _
    exact_mod_cast Nat.zero_le p.2
  · intro o text r err h
    by_cases hc : text = [] ∨ pyStrip text = []
    · rw [detect_empty o text hc] at h
      exact absurd (congrArg Prod.fst h) (by simp)
    · have hne : pyStrip text ≠ [] := fun hh => hc (Or.inr hh)
      cases hv : o.polarity_scores (preprocess_text text) with
      | error e =>
        rw [detect_vader_error o text e hne hv] at h
        exact absurd (congrArg Prod.fst h) (by simp)
      | ok s =>
        cases hb : o.textblob_sentiment (preprocess_text text) with
        | error e =>
          rw [detect_blob_error o text s e hne hv hb] at h
          exact absurd (congrArg Prod.fst h) (by simp)
        | ok ps =>
          rw [detect_ok o text s ps hne hv hb] at h
          have hr : pipelineResult s ps (preprocess_text text) = r :=
            Option.some.inj (congrArg Prod.fst h)
          rw [← hr]
          rfl

/-- Witness for C7 at a concrete mixed-case, punctuated text with repeated
keywords, an entry of its score table, and a concrete successful run. -/
theorem C7_witness :
    (detect_emotions_by_keywords (preprocess_text " Happy!! HAPPY @ ".data) =
      emotionKeywords.map (fun p =>
        (p.1, (p.2.map (fun kw => pyCount kw (claimClean " Happy!! HAPPY @ ".data))).sum)))
    ∧ (0:ℤ) ≤ ((("happy", 2) : String × ℕ).2 : ℤ)
    ∧ (pipelineResult ⟨0, 0, 0, 1⟩ (0, 0) (preprocess_text "hi".data)).keyword_emotions =
        detect_emotions_by_keywords (preprocess_text "hi".data) := by
  refine ⟨C7_keyword_scores.1 " Happy!! HAPPY @ ".data, ?_, ?_⟩
  · exact C7_keyword_scores.2.1 (preprocess_text " Happy!! HAPPY @ ".data)
      ("happy", 2) (by decide)
  · exact C7_keyword_scores.2.2 okOracle "hi".data _ none
      (detect_ok okOracle "hi".data ⟨0, 0, 0, 1⟩ (0, 0) (by decide) rfl rfl)

/-- C8: `detect_emotion_from_text` never raises past its boundary: blank
input yields no result and the empty-input error; a raising sentiment
collaborator yields no result and the analysis-error message; otherwise it
yields a result and no error — and a result is present exactly when the
error is absent. -/
theorem C8_error_boundary (o : TextOracles) (text : List Char) :
    ((text = [] ∨ pyStrip text = []) →
      detect_emotion_from_text o text = (none, some "Empty text provided"))
    ∧ (∀ e, pyStrip text ≠ [] →
        o.polarity_scores (preprocess_text text) = .error e →
        detect_emotion_from_text o text =
          (none, some ("Error analyzing text emotion: " ++ e)))
    ∧ (∀ s e, pyStrip text ≠ [] →
        o.polarity_scores (preprocess_text text) = .ok s →
        o.textblob_sentiment (preprocess_text text) = .error e →
        detect_emotion_from_text o text =
          (none, some ("Error analyzing text emotion: " ++ e)))
    ∧ (∀ s ps, pyStrip text ≠ [] →
        o.polarity_scores (preprocess_text text) = .ok s →
        o.textblob_sentiment (preprocess_text text) = .ok ps →
        detect_emotion_from_text o text =
          (some (pipelineResult s ps (preprocess_text text)), none))
    ∧ ((detect_emotion_from_text o text).1.isSome ↔
        (detect_emotion_from_text o text).2 = none) := by
  refine ⟨detect_empty o text,
    fun e hne hv => detect_vader_error o text e hne hv,
    fun s e hne hv hb => detect_blob_error o text s e hne hv hb,
    fun s ps hne hv hb => detect_ok o text s ps hne hv hb, ?_⟩
  by_cases hc : text = [] ∨ pyStrip text = []
  · rw [detect_empty o text hc]
    simp
  · have hne : pyStrip text ≠ [] := fun hh => hc (Or.inr hh)
    cases hv : o.polarity_scores (preprocess_text text) with
    | error e =>
      rw [detect_vader_error o text e hne hv]
      simp
    | ok s =>
      cases hb : o.textblob_sentiment (preprocess_text text) with
      | error e =>
        rw [detect_blob_error o text s e hne hv hb]
        simp
      | ok ps =>
        rw [detect_ok o text s ps hne hv hb]
        simp

/-- Witness for C8: blank input, a raising collaborator, and a clean run, at
concrete inputs. -/
theorem C8_witness :
    detect_emotion_from_text okOracle "   ".data = (none, some "Empty text provided")
    ∧ detect_emotion_from_text failOracle "hi".data =
        (none, some ("Error analyzing text emotion: " ++ "boom"))
    ∧ detect_emotion_from_text okOracle "hi".data =
        (some (pipelineResult ⟨0, 0, 0, 1⟩ (0, 0) (preprocess_text "hi".data)), none) :=
  ⟨(C8_error_boundary okOracle _).1 (Or.inr (by decide)),
   (C8_error_boundary failOracle _).2.1 "boom" (by decide) rfl,
   (C8_error_boundary okOracle _).2.2.2.1 ⟨0, 0, 0, 1⟩ (0, 0) (by decide) rfl rfl⟩

/-- A collaborator that succeeds with empty results. -/
def apiEmpty : SpotifyAPI :=
  { search := fun _ _ _ => .ok [],
    audio_features := fun _ => .ok [],
    track := fun _ => .error "down" }

/-- C4: during a catalog build over an ordered genre sequence, the catalog is
the concatenation of per-genre row lists, a collaborator failure on one genre
contributes the empty list for that genre only, and the (spec-modelled)
`build_track_database` fails — with `EmptyCatalog` — exactly when the build
yields zero usable rows across all genres; per-genre failures are never
escalated. -/
theorem C4_genre_failure_skipped (api : SpotifyAPI) (genres : List String)
    (tpg : ℕ) :
    build_dataset api genres tpg = (genres.map (genre_rows api tpg)).flatten
    ∧ (∀ g e, api.search ("genre:" ++ g) tpg 0 = .error e →
        genre_rows api tpg g = [])
    ∧ (∀ e, build_track_database api genres tpg = .error e ↔
        (build_dataset api genres tpg = [] ∧ e = "EmptyCatalog"))
    ∧ (build_dataset api genres tpg ≠ [] →
        build_track_database api genres tpg = .ok (build_dataset api genres tpg)) := by
  refine ⟨build_dataset_eq_join api genres tpg,
    fun g e h => genre_rows_of_search_error api tpg g e h, ?_, ?_⟩
  · intro e
    constructor
    · intro h
      unfold build_track_database at h
      by_cases hd : (build_dataset api genres tpg).isEmpty
      · rw [if_pos hd] at h
        exact ⟨List.isEmpty_iff.mp hd, (Except.error.inj h).symm⟩
      · rw [if_neg hd] at h
        exact absurd h (by simp)
    · rintro ⟨h1, rfl⟩
      unfold build_track_database
      rw [if_pos (List.isEmpty_iff.mpr h1)]
  · intro hne
    unfold build_track_database
    rw [if_neg (fun hd => hne (List.isEmpty_iff.mp hd))]

/-- Witness for C4: a genre whose search raises contributes nothing, an
all-failing collaborator gives `EmptyCatalog`, and a partially failing one
still returns its rows. -/
theorem C4_witness :
    genre_rows apiOk 5 "rock" = []
    ∧ build_track_database apiFail ["pop"] 5 = .error "EmptyCatalog"
    ∧ build_track_database apiOk ["pop", "rock"] 5 =
        .ok (build_dataset apiOk ["pop", "rock"] 5) := by
  refine ⟨(C4_genre_failure_skipped apiOk [] 5).2.1 "rock" "down" rfl, ?_, ?_⟩
  · exact ((C4_genre_failure_skipped apiFail ["pop"] 5).2.2.1 "EmptyCatalog").mpr
      ⟨rfl, rfl⟩
  · exact (C4_genre_failure_skipped apiOk ["pop", "rock"] 5).2.2.2
      (fun h => absurd (congrArg List.length h) (by decide))

/-- C5 counterexample: a collaborator returning the same track, with
features, for two genres makes `build_dataset` emit two rows with the same
id — the claimed deduplication by id does not happen. -/
theorem C5_counterexample :
    ¬ (((build_dataset apiDup ["pop", "rock"] 1).map DataRow.id).Nodup) := by
  decide

/-- C5 (amended): `build_dataset` performs no deduplication by id — the id
sequence of the catalog is exactly the concatenation, over genres in order,
of the ids of the searched tracks whose feature fetch is non-empty, so a
track returned for more than one genre (or more than once) appears once per
such occurrence. -/
theorem C5_no_dedup (api : SpotifyAPI) (genres : List String) (tpg : ℕ) :
    (build_dataset api genres tpg).map DataRow.id =
      (genres.map (fun g =>
        ((search_tracks api ("genre:" ++ g) tpg 0).filter
          (fun track => !(get_track_features api [track.id]).isEmpty)).map
            RawTrack.id)).flatten := by
  rw [build_dataset_eq_join api genres tpg, List.map_flatten, List.map_map]
  congr 1
  apply List.map_congr_left
  intro g _
  exact genre_rows_map_id api tpg g

/-- C9: every row stored by `build_dataset` carries a complete feature
record (hence at least valence, energy and danceability); `get_track_features`
filters the null entries out of the collaborator response; and a track whose
feature fetch fails or is empty contributes no row. -/
theorem C9_complete_feature_vectors (api : SpotifyAPI) (genres : List String)
    (tpg : ℕ) :
    (∀ row ∈ build_dataset api genres tpg, ∃ f : FeatureRec, row.features = some f)
    ∧ (∀ (ids : List String) (fs : List (Option FeatureRec)),
        api.audio_features ids = .ok fs →
        get_track_features api ids = fs.filterMap id)
    ∧ (∀ tid : String, get_track_features api [tid] = [] →
        ∀ row ∈ build_dataset api genres tpg, row.id ≠ tid) := by
  refine ⟨?_, ?_, ?_⟩
  · intro row hrow
    rw [build_dataset_eq_join] at hrow
    obtain ⟨l, hl, hrl⟩ := List.mem_flatten.mp hrow
    obtain ⟨g, hg, rfl⟩ := List.mem_map.mp hl
    obtain ⟨track, htr, f, fs, hf, hrow2⟩ := mem_genre_rows.mp hrl
    exact ⟨f, by rw [hrow2]⟩
  · intro ids fs h
    unfold get_track_features
    rw [h]
  · intro tid htid row hrow hid
    rw [build_dataset_eq_join] at hrow
    obtain ⟨l, hl, hrl⟩ := List.mem_flatten.mp hrow
    obtain ⟨g, hg, rfl⟩ := List.mem_map.mp hl
    obtain ⟨track, htr, f, fs, hf, hrow2⟩ := mem_genre_rows.mp hrl
    have hidt : row.id = track.id := by rw [hrow2]; rfl
    rw [hidt] at hid
    rw [hid, htid] at hf
    exact List.noConfusion hf

/-- Witness for C9: the null feature entry of `t2` is filtered out, `t2`
reaches no catalog row, and the one stored row has a complete record. -/
theorem C9_witness :
    get_track_features apiOk ["t2"] = [(none : Option FeatureRec)].filterMap id
    ∧ (∀ row ∈ build_dataset apiOk ["pop", "rock"] 5, row.id ≠ "t2")
    ∧ ∃ f : FeatureRec,
        ({ mkBaseRow "pop" trackA with features := some featA } : DataRow).features
          = some f := by
  refine ⟨(C9_complete_feature_vectors apiOk ["pop", "rock"] 5).2.1 ["t2"] [none] rfl,
    (C9_complete_feature_vectors apiOk ["pop", "rock"] 5).2.2 "t2" rfl, ?_⟩
  exact (C9_complete_feature_vectors apiOk ["pop", "rock"] 5).1
    { mkBaseRow "pop" trackA with features := some featA } (List.Mem.head _)

/-- C10: each wrapper method of `SpotifyClient` swallows every collaborator
exception — `search_tracks` and `get_track_features` return `[]`,
`get_track_info` returns `none` — so a failing collaborator is
indistinguishable from one returning a genuinely empty result. -/
theorem C10_swallowed_exceptions (api api2 : SpotifyAPI) :
    (∀ (q : String) (l off : ℕ) (e : String),
        api.search q l off = .error e → search_tracks api q l off = [])
    ∧ (∀ (ids : List String) (e : String),
        api.audio_features ids = .error e → get_track_features api ids = [])
    ∧ (∀ (tid e : String), api.track tid = .error e → get_track_info api tid = none)
    ∧ (∀ (q : String) (l off : ℕ) (e : String),
        api.search q l off = .error e → api2.search q l off = .ok [] →
        search_tracks api q l off = search_tracks api2 q l off)
    ∧ (∀ (ids : List String) (e : String),
        api.audio_features ids = .error e → api2.audio_features ids = .ok [] →
        get_track_features api ids = get_track_features api2 ids)
    ∧ (∀ (ids : List String) (k : ℕ),
        api.audio_features ids = .ok (List.replicate k none) →
        get_track_features api ids = []) := by
  have hrep : ∀ k : ℕ, (List.replicate k (none : Option FeatureRec)).filterMap id = [] := by
    intro k
    induction k with
    | zero => rfl
    | succ k ih => rw [List.replicate_succ, List.filterMap_cons]; exact ih
  refine ⟨?_, ?_, ?_, ?_, ?_, ?_⟩
  · intro q l off e h
    unfold search_tracks
    rw [h]
  · intro ids e h
    unfold get_track_features
    rw [h]
  · intro tid e h
    unfold get_track_info
    rw [h]
  · intro q l off e h h2
    unfold search_tracks
    rw [h, h2]
  · intro ids e h h2
    unfold get_track_features
    rw [h, h2]
    rfl
  · intro ids k h
    unfold get_track_features
    rw [h]
    exact hrep k

/-- Witness for C10 at the always-failing collaborator, compared with the
empty-but-successful one. -/
theorem C10_witness :
    search_tracks apiFail "q" 5 0 = []
    ∧ get_track_features apiFail ["t1"] = []
    ∧ get_track_info apiFail "t1" = none
    ∧ search_tracks apiFail "q" 5 0 = search_tracks apiEmpty "q" 5 0
    ∧ get_track_features apiFail ["t1"] = get_track_features apiEmpty ["t1"]
    ∧ get_track_features apiOk ["t2"] = [] :=
  ⟨(C10_swallowed_exceptions apiFail apiEmpty).1 "q" 5 0 "down" rfl,
   (C10_swallowed_exceptions apiFail apiEmpty).2.1 ["t1"] "down" rfl,
   (C10_swallowed_exceptions apiFail apiEmpty).2.2.1 "t1" "down" rfl,
   (C10_swallowed_exceptions apiFail apiEmpty).2.2.2.1 "q" 5 0 "down" rfl rfl,
   (C10_swallowed_exceptions apiFail apiEmpty).2.2.2.2.1 ["t1"] "down" rfl rfl,
   (C10_swallowed_exceptions apiOk apiEmpty).2.2.2.2.2 ["t2"] 1 rfl⟩

end SpotiFinder
